import Mathlib

/-
Shallow embedding of worker/src/queues/ingestionQueue.ts (langfuse worker).

The file models the module-level S3 client cache (getS3StorageServiceClient),
and the job processor ingestionQueueProcessor. External collaborators
(S3 listing/download, JSON.parse, the two zod schemas ingestionBatchEvent and
ingestionEvent, getClickhouseEntityType, IngestionService.mergeAndWrite, and
the BullMQ queue-depth read) are fields of a World record: the processor in
the source treats all of them as opaque calls, so the embedding is
parametric in their behaviour. Fallible calls return Except String.
JavaScript promise concurrency of Promise.all is modelled by an explicit
completion schedule (a permutation of the task indices): the rejection that
settles first in schedule order is the one Promise.all rejects with, while
fulfilled results are assembled by task index, i.e. in listing order.
A rejection reaching an await inside the try block throws to the catch
block; note that .catch() invoked with no handler argument does NOT install
a rejection handler (ECMA-262: catch(onRejected) = then(undefined,
onRejected), and a non-callable onRejected lets the rejection pass through),
so the queue-depth read's rejection propagates.
-/

/-- JavaScript s.split("-") (single-character separator), on the string's
character list. Returns at least one (possibly empty) segment, like JS. -/
def splitDash : List Char → List (List Char)
  | [] => [[]]
  | c :: rest =>
    if c = '-' then [] :: splitDash rest
    else
      match splitDash rest with
      | [] => [[c]]
      | h :: t => (c :: h) :: t

/-- Source line: const eventName = job.data.payload.data.type.split("-").shift().
split always yields a non-empty array, so shift() returns its head. -/
def eventNameOf (typeTag : String) : String :=
  String.mk ((splitDash typeTag.data).headD [])

/-- From the spec's words only: "the substring before the first separator"
(the dash): the characters of the type tag strictly before the first dash. -/
def specEventTypeHead (typeTag : String) : String :=
  String.mk (typeTag.data.takeWhile (fun c => c ≠ '-'))

/-- env.LANGFUSE_S3_EVENT_UPLOAD_* connection settings passed to the
S3StorageService constructor (everything except the bucket name). -/
structure S3Config where
  accessKeyId : String
  secretAccessKey : String
  endpoint : String
  region : String
  forcePathStyle : Bool

/-- The constructed client: new S3StorageService({ bucketName, ...cfg }). -/
structure S3StorageService where
  bucketName : String
  accessKeyId : String
  secretAccessKey : String
  endpoint : String
  region : String
  forcePathStyle : Bool

def mkS3StorageService (cfg : S3Config) (bucketName : String) : S3StorageService :=
  { bucketName := bucketName
    accessKeyId := cfg.accessKeyId
    secretAccessKey := cfg.secretAccessKey
    endpoint := cfg.endpoint
    region := cfg.region
    forcePathStyle := cfg.forcePathStyle }

/-- Module-level cache: `let s3StorageServiceClient` starts undefined (none);
`if (!s3StorageServiceClient)` constructs and stores a client (an object is
always truthy afterwards), else the cached instance is returned. The cache
cell is passed and returned explicitly. -/
def getS3StorageServiceClient (cached : Option S3StorageService) (cfg : S3Config)
    (bucketName : String) : S3StorageService × Option S3StorageService :=
  match cached with
  | none =>
    let client := mkS3StorageService cfg bucketName
    (client, some client)
  | some client => (client, some client)

/-- Folding a sequence of accessor calls (one bucket-name argument per call)
over the cache cell. -/
def getS3CallFold (cached : Option S3StorageService) (cfg : S3Config)
    (buckets : List String) : Option S3StorageService :=
  buckets.foldl (fun st b => (getS3StorageServiceClient st cfg b).2) cached

inductive LogLevel
  | info
  | warn
  | error
  | debug
deriving DecidableEq

structure LogEntry where
  level : LogLevel
  msg : String
deriving DecidableEq

/-- One invocation of IngestionService(...).mergeAndWrite with its arguments. -/
structure MergeCall (E : Type) where
  entityType : String
  projectId : String
  eventBodyId : String
  events : List E
deriving DecidableEq

/-- Observable side effects of one processor invocation, in emission order
per channel. -/
structure Effects (E : Type) where
  logs : List LogEntry := []
  increments : List String := []
  histograms : List (String × Int) := []
  gauges : List (String × Int) := []
  merges : List (MergeCall E) := []
  traced : List String := []
deriving DecidableEq

/-- The BullMQ job consumed by the processor, mirroring the fields the source
reads: job.data.payload.authCheck.scope.projectId,
job.data.payload.data.type, job.data.payload.data.eventBodyId, job.timestamp. -/
structure JobScope where
  projectId : String
deriving DecidableEq

structure JobAuthCheck where
  scope : JobScope
deriving DecidableEq

structure JobPayloadData where
  type : String
  eventBodyId : String
deriving DecidableEq

structure JobPayload where
  authCheck : JobAuthCheck
  data : JobPayloadData
deriving DecidableEq

structure JobData where
  payload : JobPayload
deriving DecidableEq

structure Job where
  data : JobData
  timestamp : Int
deriving DecidableEq

/-- Environment and external collaborators of the processor. C is the type of
JSON.parse results, E the type of validated (typed) events. -/
structure World (C E : Type) where
  uploadEnabled : String
  bucket : String
  uploadPathStart : String
  redisAvailable : Bool
  prismaAvailable : Bool
  listFiles : String → Except String (List String)
  download : String → Except String String
  jsonParse : String → Except String C
  batchSafeParse : C → Except String (List E)
  eventSafeParse : C → Except String E
  entityType : E → String
  merge : String → String → String → List E → Except String Unit
  queueCount : Option (Except String Int)
  now0 : Int
  now1 : Int
  now2 : Int

/-- The S3 folder listed for the job (source line 70):
LANGFUSE_S3_EVENT_UPLOAD_PREFIX + projectId + "/" + eventName + "/" + eventBodyId + "/". -/
def fragmentFolder {C E : Type} (w : World C E) (job : Job) (eventName : String) : String :=
  w.uploadPathStart ++ job.data.payload.authCheck.scope.projectId ++ "/" ++ eventName
    ++ "/" ++ job.data.payload.data.eventBodyId ++ "/"

/-- One fragment's unit of work (the async callback of eventFiles.map):
download, JSON.parse, try the batch schema, else the single-event schema,
else reject with the single-event schema's error message. -/
def fragmentTask {C E : Type} (w : World C E) (key : String) : Except String (List E) :=
  match w.download key with
  | Except.error e => Except.error e
  | Except.ok file =>
    match w.jsonParse file with
    | Except.error e => Except.error e
    | Except.ok parsedFile =>
      match w.batchSafeParse parsedFile with
      | Except.ok data => Except.ok data
      | Except.error _ =>
        match w.eventSafeParse parsedFile with
        | Except.ok data => Except.ok [data]
        | Except.error msg => Except.error ("Failed to parse event from S3: " ++ msg)

/-- The first rejection among the tasks, in completion (schedule) order. -/
def firstErrorIn {ε α : Type} (sched : List Nat) (tasks : List (Except ε α)) : Option ε :=
  sched.findSome? (fun i =>
    match tasks.get? i with
    | some (Except.error e) => some e
    | _ => none)

/-- Promise.all: rejects with the first rejection to settle (schedule order);
when every task fulfils, the results are assembled by task index, i.e. in the
original listing order, regardless of the schedule. -/
def promiseAll {ε α : Type} (sched : List Nat) (tasks : List (Except ε α)) :
    Except ε (List α) :=
  match firstErrorIn sched tasks with
  | some e => Except.error e
  | none => Except.ok (tasks.filterMap Except.toOption)

/-- Lines 74-95: Promise.all over the listed keys, then .flat(). -/
def assembleEvents {C E : Type} (sched : List Nat) (w : World C E)
    (keys : List String) : Except String (List E) :=
  match promiseAll sched (keys.map (fragmentTask w)) with
  | Except.error e => Except.error e
  | Except.ok ls => Except.ok ls.flatten

/-- Lines 104-140: the non-empty-batch tail of the try block — redis/prisma
checks, the single mergeAndWrite call, post-merge telemetry, the queue-depth
read (whose rejection propagates: .catch() installs no handler), and the
processing-time histogram. -/
def mergeAndTelemetry {C E : Type} (w : World C E) (job : Job) (eff0 : Effects E)
    (e0 : E) (events : List E) : Except String Unit × Effects E :=
  if w.redisAvailable = false then ((Except.error "Redis not available" : Except String Unit), eff0)
  else if w.prismaAvailable = false then (Except.error "Prisma not available", eff0)
  else
    let mc : MergeCall E :=
      { entityType := w.entityType e0
        projectId := job.data.payload.authCheck.scope.projectId
        eventBodyId := job.data.payload.data.eventBodyId
        events := events }
    let eff1 : Effects E := { eff0 with merges := eff0.merges ++ [mc] }
    match w.merge mc.entityType mc.projectId mc.eventBodyId mc.events with
    | Except.error e => (Except.error e, eff1)
    | Except.ok _ =>
      let waitTime := w.now1 - job.timestamp
      let eff2 : Effects E := { eff1 with
        increments := eff1.increments ++ ["langfuse.queue.ingestion.request"]
        histograms := eff1.histograms ++ [("langfuse.queue.ingestion.wait_time", waitTime)] }
      match w.queueCount with
      | none =>
        (Except.ok (), { eff2 with
          histograms := eff2.histograms
            ++ [("langfuse.queue.ingestion.processing_time", w.now2 - w.now0)] })
      | some (Except.error e) => (Except.error e, eff2)
      | some (Except.ok n) =>
        let eff3 : Effects E := { eff2 with
          logs := eff2.logs ++ [⟨LogLevel.debug, "Ingestion queue length: " ++ toString n⟩]
          gauges := eff2.gauges ++ [("langfuse.queue.ingestion.length", n)] }
        (Except.ok (), { eff3 with
          histograms := eff3.histograms
            ++ [("langfuse.queue.ingestion.processing_time", w.now2 - w.now0)] })

/-- The body of the try block of ingestionQueueProcessor. sched is the
completion schedule of the fragment tasks. -/
def runTry {C E : Type} (sched : List Nat) (w : World C E) (job : Job) :
    Except String Unit × Effects E :=
  if ¬ (w.uploadEnabled = "true") ∨ w.bucket = "" then
    ((Except.error "S3 event store is not enabled but useS3EventStore is true" :
      Except String Unit), ({} : Effects E))
  else
    let eventName := eventNameOf job.data.payload.data.type
    if eventName = "" then
      (Except.error "Event name not found", ({} : Effects E))
    else
      let eff0 : Effects E :=
        { logs := [{ level := LogLevel.info, msg := "Processing ingestion event" }] }
      match w.listFiles (fragmentFolder w job eventName) with
      | Except.error e => (Except.error e, eff0)
      | Except.ok eventFiles =>
        match assembleEvents sched w eventFiles with
        | Except.error e => (Except.error e, eff0)
        | Except.ok events =>
          match events with
          | [] =>
            (Except.ok (), { eff0 with
              logs := eff0.logs ++ [⟨LogLevel.warn,
                "No events found for project "
                  ++ job.data.payload.authCheck.scope.projectId
                  ++ " and event " ++ job.data.payload.data.eventBodyId⟩] })
          | e0 :: _ => mergeAndTelemetry w job eff0 e0 events

/-- ingestionQueueProcessor: the try block, wrapped in the catch block that
logs the failure with the tenant's projectId, forwards the error to
traceException, and rethrows it unchanged. -/
def run {C E : Type} (sched : List Nat) (w : World C E) (job : Job) :
    Except String Unit × Effects E :=
  match runTry sched w job with
  | (Except.ok u, eff) => (Except.ok u, eff)
  | (Except.error e, eff) =>
    (Except.error e,
     { eff with
       logs := eff.logs ++ [⟨LogLevel.error,
         "Failed job ingestion processing for "
           ++ job.data.payload.authCheck.scope.projectId⟩]
       traced := eff.traced ++ [e] })

/-- Char-list prefix test (for stating what an error message carries). -/
def startsWithChars : List Char → List Char → Bool
  | [], _ => true
  | _ :: _, [] => false
  | a :: as, b :: bs => a == b && startsWithChars as bs

/-- Char-list substring test: does hay contain needle anywhere? -/
def containsChars (needle : List Char) : List Char → Bool
  | [] => startsWithChars needle []
  | c :: rest => startsWithChars needle (c :: rest) || containsChars needle rest

/-- Concrete job used for witnesses: { projectId: "p1", type: "trace-create",
eventBodyId: "b1" }, the spec's own scenario. -/
def cfgJob : Job :=
  { data := { payload := { authCheck := { scope := { projectId := "p1" } }
                           data := { type := "trace-create", eventBodyId := "b1" } } }
    timestamp := 0 }

/-- Job whose type tag starts with the dash separator, so no event-type
name is derivable. -/
def dashJob : Job :=
  { data := { payload := { authCheck := { scope := { projectId := "p1" } }
                           data := { type := "-create", eventBodyId := "b1" } } }
    timestamp := 0 }

/-- A fully healthy world: one fragment "k0" that parses as a batch [7]. -/
def baseWorld : World Nat Nat :=
  { uploadEnabled := "true"
    bucket := "bkt"
    uploadPathStart := "events/"
    redisAvailable := true
    prismaAvailable := true
    listFiles := fun _ => Except.ok ["k0"]
    download := fun _ => Except.ok "raw"
    jsonParse := fun _ => Except.ok 0
    batchSafeParse := fun _ => Except.ok [7]
    eventSafeParse := fun _ => Except.error "not single"
    entityType := fun _ => "trace"
    merge := fun _ _ _ _ => Except.ok ()
    queueCount := some (Except.ok 5)
    now0 := 10
    now1 := 20
    now2 := 30 }

/-- Healthy pipeline, but the queue-depth read rejects. -/
def wDepthFail : World Nat Nat :=
  { baseWorld with queueCount := some (Except.error "count failed") }

/-- Listing yields zero keys. -/
def wEmptyListing : World Nat Nat :=
  { baseWorld with listFiles := fun _ => Except.ok [] }

/-- One fragment that matches neither schema. -/
def wBadFragment : World Nat Nat :=
  { baseWorld with
    listFiles := fun _ => Except.ok ["frag-key-1"]
    batchSafeParse := fun _ => Except.error "not an array"
    eventSafeParse := fun _ => Except.error "missing type field" }

/-- World with the blob-backed flow disabled (configuration failure). -/
def wConfigOff : World Nat Nat :=
  { baseWorld with uploadEnabled := "false" }

/-- A fragment that fails the batch schema but passes the single-event one. -/
def wSingleOnly : World Nat Nat :=
  { baseWorld with
    batchSafeParse := fun _ => Except.error "not an array"
    eventSafeParse := fun _ => Except.ok 42 }

/-- Concrete connection settings for the client-cache witness. -/
def cfg0 : S3Config :=
  { accessKeyId := "ak"
    secretAccessKey := "sk"
    endpoint := "ep"
    region := "r"
    forcePathStyle := false }

theorem splitDash_ne_nil (l : List Char) : splitDash l ≠ [] := by
  cases l with
  | nil => simp [splitDash]
  | cons c rest =>
    simp only [splitDash]
    split
    · simp
    · split <;> simp

theorem splitDash_headD (l : List Char) :
    (splitDash l).headD [] = l.takeWhile (fun c => decide (c ≠ '-')) := by
  induction l with
  | nil => simp [splitDash]
  | cons c rest ih =>
    by_cases hc : c = '-'
    · subst hc
      simp [splitDash, List.takeWhile_cons]
    · simp only [splitDash, if_neg hc]
      cases e : splitDash rest with
      | nil => exact absurd e (splitDash_ne_nil rest)
      | cons h t =>
        rw [e] at ih
        simp only [List.headD_cons] at ih ⊢
        simp [List.takeWhile_cons, hc, ih]

theorem firstErrorIn_nil {ε α : Type} (sched : List Nat) :
    firstErrorIn sched ([] : List (Except ε α)) = none := by
  induction sched with
  | nil => rfl
  | cons a rest ih => simpa [firstErrorIn, List.findSome?_cons] using ih

theorem firstErrorIn_map_ok {ε α : Type} (sched : List Nat) (ls : List α) :
    firstErrorIn sched (ls.map (Except.ok : α → Except ε α)) = none := by
  induction sched with
  | nil => rfl
  | cons a rest ih =>
    simp only [firstErrorIn, List.findSome?_cons] at ih ⊢
    rw [List.get?_map]
    cases ls.get? a <;> simpa using ih

theorem promiseAll_map_ok {ε α : Type} (sched : List Nat) (ls : List α) :
    promiseAll sched (ls.map (Except.ok : α → Except ε α)) = Except.ok ls := by
  rw [promiseAll, firstErrorIn_map_ok]
  show Except.ok (List.filterMap Except.toOption (ls.map Except.ok)) = Except.ok ls
  rw [List.filterMap_map,
    show (Except.toOption ∘ (Except.ok : α → Except ε α)) = some from rfl,
    List.filterMap_some]

theorem exists_of_firstErrorIn {ε α : Type} {sched : List Nat}
    {tasks : List (Except ε α)} {e : ε}
    (h : firstErrorIn sched tasks = some e) :
    ∃ i, i ∈ sched ∧ tasks.get? i = some (Except.error e) := by
  induction sched with
  | nil => simp [firstErrorIn] at h
  | cons a rest ih =>
    rw [firstErrorIn, List.findSome?_cons] at h
    cases ht : tasks.get? a with
    | none =>
      rw [ht] at h
      simp only at h
      obtain ⟨i, hi, hti⟩ := ih h
      exact ⟨i, by simp [hi], hti⟩
    | some t =>
      cases t with
      | error e' =>
        rw [ht] at h
        simp only at h
        have : e' = e := by simpa using h
        subst this
        exact ⟨a, by simp, ht⟩
      | ok v =>
        rw [ht] at h
        simp only at h
        obtain ⟨i, hi, hti⟩ := ih h
        exact ⟨i, by simp [hi], hti⟩

theorem firstErrorIn_isSome_of {ε α : Type} {sched : List Nat}
    {tasks : List (Except ε α)} {i : Nat} {e' : ε}
    (hi : i ∈ sched) (ht : tasks.get? i = some (Except.error e')) :
    ∃ e, firstErrorIn sched tasks = some e := by
  induction sched with
  | nil => simp at hi
  | cons a rest ih =>
    rw [firstErrorIn, List.findSome?_cons]
    cases hfa : (match tasks.get? a with
        | some (Except.error e) => some e
        | _ => none : Option ε) with
    | some b => exact ⟨b, rfl⟩
    | none =>
      have hi' : i ∈ rest := by
        cases List.mem_cons.mp hi with
        | inl hh =>
          subst hh
          rw [ht] at hfa
          simp at hfa
        | inr hh => exact hh
      obtain ⟨e, he⟩ := ih hi'
      exact ⟨e, he⟩

theorem assembleEvents_of_ok {C E : Type} (sched : List Nat) (w : World C E)
    (keys : List String) (ls : List (List E))
    (hok : keys.map (fragmentTask w) = ls.map (Except.ok : List E → Except String (List E))) :
    assembleEvents sched w keys = Except.ok ls.flatten := by
  unfold assembleEvents
  rw [hok, promiseAll_map_ok]

theorem assembleEvents_nil {C E : Type} (sched : List Nat) (w : World C E) :
    assembleEvents sched w [] = Except.ok [] := by
  unfold assembleEvents promiseAll
  rw [show ([] : List String).map (fragmentTask w) = [] from rfl, firstErrorIn_nil]
  rfl

theorem run_fst_eq {C E : Type} (sched : List Nat) (w : World C E) (job : Job) :
    (run sched w job).1 = (runTry sched w job).1 := by
  rw [run]
  split
  next u eff heq => rw [heq]
  next e eff heq => rw [heq]

theorem run_merges_eq {C E : Type} (sched : List Nat) (w : World C E) (job : Job) :
    (run sched w job).2.merges = (runTry sched w job).2.merges := by
  rw [run]
  split
  next u eff heq => rw [heq]
  next e eff heq => rw [heq]

theorem run_increments_eq {C E : Type} (sched : List Nat) (w : World C E) (job : Job) :
    (run sched w job).2.increments = (runTry sched w job).2.increments := by
  rw [run]
  split
  next u eff heq => rw [heq]
  next e eff heq => rw [heq]

theorem mergeAndTelemetry_merges {C E : Type} (w : World C E) (job : Job)
    (eff0 : Effects E) (e0 : E) (events : List E) :
    (mergeAndTelemetry w job eff0 e0 events).2.merges = eff0.merges ∨
    (mergeAndTelemetry w job eff0 e0 events).2.merges = eff0.merges ++
      [{ entityType := w.entityType e0
         projectId := job.data.payload.authCheck.scope.projectId
         eventBodyId := job.data.payload.data.eventBodyId
         events := events }] := by
  simp only [mergeAndTelemetry]
  split
  · exact Or.inl rfl
  · split
    · exact Or.inl rfl
    · split
      · exact Or.inr rfl
      · split
        · exact Or.inr rfl
        · exact Or.inr rfl
        · exact Or.inr rfl

theorem mergeAndTelemetry_inc_iff {C E : Type} (w : World C E) (job : Job)
    (eff0 : Effects E) (e0 : E) (events : List E)
    (h0i : eff0.increments = []) (h0m : eff0.merges = []) :
    ((mergeAndTelemetry w job eff0 e0 events).2.increments ≠ [] ↔
      ∃ mc ∈ (mergeAndTelemetry w job eff0 e0 events).2.merges,
        w.merge mc.entityType mc.projectId mc.eventBodyId mc.events = Except.ok ()) := by
  simp only [mergeAndTelemetry]
  split
  · simp [h0i, h0m]
  · split
    · simp [h0i, h0m]
    · split
      next e hm =>
        simp_all
      next u hm =>
        cases u
        split
        · simp_all
        · simp_all
        · simp_all

theorem runTry_merge_shape {C E : Type} (sched : List Nat) (w : World C E) (job : Job) :
    (runTry sched w job).2.merges.length ≤ 1 ∧
    ∀ mc ∈ (runTry sched w job).2.merges,
      ∃ keys events e0 rest,
        w.listFiles (fragmentFolder w job (eventNameOf job.data.payload.data.type)) =
          Except.ok keys ∧
        assembleEvents sched w keys = Except.ok events ∧
        events = e0 :: rest ∧
        mc.entityType = w.entityType e0 ∧
        mc.projectId = job.data.payload.authCheck.scope.projectId ∧
        mc.eventBodyId = job.data.payload.data.eventBodyId ∧
        mc.events = events := by
  simp only [runTry]
  split
  · simp
  · split
    · simp
    · split
      next e heq => simp
      next keys heq =>
        split
        next e heq2 => simp
        next events heq2 =>
          split
          · simp
          next e0 rest =>
            rcases mergeAndTelemetry_merges w job
                { logs := [⟨LogLevel.info, "Processing ingestion event"⟩] } e0 (e0 :: rest)
              with h | h
            · rw [h]
              simp
            · rw [h]
              refine ⟨by simp, ?_⟩
              intro mc hmc
              simp only [List.nil_append] at hmc
              rw [List.mem_singleton] at hmc
              subst hmc
              exact ⟨keys, e0 :: rest, e0, rest, heq, heq2, rfl, rfl, rfl, rfl, rfl⟩

theorem runTry_inc_iff {C E : Type} (sched : List Nat) (w : World C E) (job : Job) :
    ((runTry sched w job).2.increments ≠ [] ↔
      ∃ mc ∈ (runTry sched w job).2.merges,
        w.merge mc.entityType mc.projectId mc.eventBodyId mc.events = Except.ok ()) := by
  simp only [runTry]
  split
  · simp
  · split
    · simp
    · split
      next e heq => simp
      next keys heq =>
        split
        next e heq2 => simp
        next events heq2 =>
          split
          · simp
          next e0 rest =>
            exact mergeAndTelemetry_inc_iff w job
              { logs := [⟨LogLevel.info, "Processing ingestion event"⟩] } e0 (e0 :: rest)
              rfl rfl

/-- C1 (code-bug evaluation): at a job whose listing, download, validation
and merge all succeed but whose queue-depth read rejects, the processor
fails with the depth-read rejection (rethrowing "count failed") even though
the merge was performed and the counter recorded. The .catch() call in the
source has no handler argument, so the rejection is not swallowed, contrary
to the claim/spec intent that a depth-read failure must never fail the job. -/
theorem claim_C1_depth_read_rejection_fails_attempt :
    (run [0] wDepthFail cfgJob).1 = Except.error "count failed" ∧
    (run [0] wDepthFail cfgJob).2.merges =
      [{ entityType := "trace", projectId := "p1", eventBodyId := "b1", events := [7] }] ∧
    (run [0] wDepthFail cfgJob).2.increments = ["langfuse.queue.ingestion.request"] := by
  refine ⟨?_, ?_, ?_⟩ <;> rfl

/-- C3: per fragment (with download and JSON.parse succeeding), the batch
shape is decisive when it validates — the fragment contributes exactly the
batch's records in their order, whatever the single-event validator would
say (it is not consulted) — and the single-event shape is used only when the
batch attempt fails, contributing exactly one typed event. -/
theorem claim_C3_batch_first_validation {C E : Type} (w : World C E)
    (key file : String) (c : C)
    (hd : w.download key = Except.ok file) (hj : w.jsonParse file = Except.ok c) :
    (∀ l, w.batchSafeParse c = Except.ok l →
      ∀ f, fragmentTask { w with eventSafeParse := f } key = Except.ok l) ∧
    (∀ eb ev, w.batchSafeParse c = Except.error eb → w.eventSafeParse c = Except.ok ev →
      fragmentTask w key = Except.ok [ev]) := by
  constructor
  · intro l hb f
    simp [fragmentTask, hd, hj, hb]
  · intro eb ev hb he
    simp [fragmentTask, hd, hj, hb, he]

/-- Witness for C3 at a concrete world: a batch fragment contributes its two
elements regardless of the single-event validator, and a single-event
fragment contributes exactly one event. -/
theorem claim_C3_witness :
    fragmentTask { baseWorld with eventSafeParse := fun _ => Except.ok 99 } "k0" =
      Except.ok [7] ∧
    fragmentTask wSingleOnly "k0" = Except.ok [42] := by
  constructor
  · exact (claim_C3_batch_first_validation baseWorld "k0" "raw" 0 rfl rfl).1
      [7] rfl (fun _ => Except.ok 99)
  · exact (claim_C3_batch_first_validation wSingleOnly "k0" "raw" 0 rfl rfl).2
      "not an array" 42 rfl rfl

/-- C7: the event-type name is the substring of the job's type tag before the
first dash (the source's split("-").shift() agrees with the spec-side
specEventTypeHead on every tag), and when that name is empty the attempt
fails with the input error "Event name not found"; the conclusion pins the
processor's entire outcome for every world satisfying the config check, so
the failure happens before any listing or download can influence it. -/
theorem claim_C7_event_type_from_tag :
    (∀ s : String, eventNameOf s = specEventTypeHead s) ∧
    (∀ (C E : Type) (sched : List Nat) (w : World C E) (job : Job),
      w.uploadEnabled = "true" → ¬ w.bucket = "" →
      eventNameOf job.data.payload.data.type = "" →
      run sched w job =
        (Except.error "Event name not found",
         { logs := [⟨LogLevel.error, "Failed job ingestion processing for "
             ++ job.data.payload.authCheck.scope.projectId⟩]
           traced := ["Event name not found"] })) := by
  constructor
  · intro s
    unfold eventNameOf specEventTypeHead
    exact congrArg String.mk (splitDash_headD s.data)
  · intro C E sched w job h1 h2 h3
    have hrt : runTry sched w job =
        (Except.error "Event name not found", ({} : Effects E)) := by
      simp only [runTry]
      rw [if_neg (by simp [h1, h2]), if_pos h3]
    unfold run
    rw [hrt]
    rfl

/-- Witness for C7: the tag "-create" has an empty name before the first
dash, and a job carrying it fails with the input error. -/
theorem claim_C7_witness :
    eventNameOf "-create" = specEventTypeHead "-create" ∧
    run [] baseWorld dashJob =
      (Except.error "Event name not found",
       { logs := [⟨LogLevel.error, "Failed job ingestion processing for p1"⟩]
         traced := ["Event name not found"] }) := by
  constructor
  · exact claim_C7_event_type_from_tag.1 "-create"
  · exact claim_C7_event_type_from_tag.2 Nat Nat [] baseWorld dashJob rfl (by decide) rfl

/-- C10: the client accessor constructs at most one client per process: from
an empty cache it builds a client carrying that call's bucket name and
caches it; with a populated cache it returns the identical cached instance
and ignores its bucket-name argument, over any sequence of further calls. -/
theorem claim_C10_singleton_client (cfg : S3Config) (b : String) :
    (getS3StorageServiceClient none cfg b).1.bucketName = b ∧
    (getS3StorageServiceClient none cfg b).2 =
      some (getS3StorageServiceClient none cfg b).1 ∧
    (∀ c b2, getS3StorageServiceClient (some c) cfg b2 = (c, some c)) ∧
    (∀ c bs, getS3CallFold (some c) cfg bs = some c) := by
  refine ⟨rfl, rfl, fun c b2 => rfl, fun c bs => ?_⟩
  induction bs with
  | nil => rfl
  | cons x xs ih => simpa [getS3CallFold, getS3StorageServiceClient] using ih

/-- Witness for C10 at concrete settings and bucket names. -/
theorem claim_C10_witness :
    (getS3StorageServiceClient none cfg0 "bucket-a").1.bucketName = "bucket-a" ∧
    (getS3StorageServiceClient none cfg0 "bucket-a").2 =
      some (getS3StorageServiceClient none cfg0 "bucket-a").1 ∧
    (∀ c b2, getS3StorageServiceClient (some c) cfg0 b2 = (c, some c)) ∧
    (∀ c bs, getS3CallFold (some c) cfg0 bs = some c) :=
  claim_C10_singleton_client cfg0 "bucket-a"

/-- C2: when the fragment listing yields zero keys, the flattened sequence is
empty, the processor emits the warn log, never invokes the merge step, and
the attempt terminates successfully. -/
theorem claim_C2_empty_listing_warns_and_succeeds {C E : Type} (sched : List Nat)
    (w : World C E) (job : Job)
    (h1 : w.uploadEnabled = "true") (h2 : ¬ w.bucket = "")
    (h3 : ¬ eventNameOf job.data.payload.data.type = "")
    (h4 : w.listFiles (fragmentFolder w job (eventNameOf job.data.payload.data.type)) =
      Except.ok []) :
    (run sched w job).1 = Except.ok () ∧
    (⟨LogLevel.warn, "No events found for project "
        ++ job.data.payload.authCheck.scope.projectId
        ++ " and event " ++ job.data.payload.data.eventBodyId⟩ : LogEntry)
      ∈ (run sched w job).2.logs ∧
    (run sched w job).2.merges = [] := by
  have hrt : runTry sched w job =
      (Except.ok (),
       { logs := [⟨LogLevel.info, "Processing ingestion event"⟩,
                  ⟨LogLevel.warn, "No events found for project "
                    ++ job.data.payload.authCheck.scope.projectId
                    ++ " and event " ++ job.data.payload.data.eventBodyId⟩] }) := by
    simp only [runTry]
    rw [if_neg (by simp [h1, h2]), if_neg h3, h4]
    simp [assembleEvents_nil]
  refine ⟨?_, ?_, ?_⟩
  · rw [run_fst_eq, hrt]
  · unfold run
    rw [hrt]
    simp
  · rw [run_merges_eq, hrt]

/-- Witness for C2 at a concrete world whose listing is empty. -/
theorem claim_C2_witness :
    (run [] wEmptyListing cfgJob).1 = Except.ok () ∧
    (⟨LogLevel.warn, "No events found for project "
        ++ cfgJob.data.payload.authCheck.scope.projectId
        ++ " and event " ++ cfgJob.data.payload.data.eventBodyId⟩ : LogEntry)
      ∈ (run [] wEmptyListing cfgJob).2.logs ∧
    (run [] wEmptyListing cfgJob).2.merges = [] :=
  claim_C2_empty_listing_warns_and_succeeds [] wEmptyListing cfgJob rfl
    (by decide) (by decide) rfl

/-- C4: when every fragment downloads and validates successfully (the mapped
tasks all fulfil with the per-fragment contribution lists ls), the assembled
sequence is the flattening of ls in listing order, and the processor's whole
outcome is the same for every completion schedule. -/
theorem claim_C4_order_independent_assembly {C E : Type} (sched : List Nat)
    (w : World C E) (job : Job) (keys : List String) (ls : List (List E))
    (h1 : w.uploadEnabled = "true") (h2 : ¬ w.bucket = "")
    (h3 : ¬ eventNameOf job.data.payload.data.type = "")
    (h4 : w.listFiles (fragmentFolder w job (eventNameOf job.data.payload.data.type)) =
      Except.ok keys)
    (hp : sched.Perm (List.range keys.length))
    (hok : keys.map (fragmentTask w) =
      ls.map (Except.ok : List E → Except String (List E))) :
    assembleEvents sched w keys = Except.ok ls.flatten ∧
    run sched w job = run (List.range keys.length) w job := by
  have ha : ∀ s : List Nat, assembleEvents s w keys = Except.ok ls.flatten :=
    fun s => assembleEvents_of_ok s w keys ls hok
  refine ⟨ha sched, ?_⟩
  have hrt : runTry sched w job = runTry (List.range keys.length) w job := by
    simp only [runTry, h4, ha]
  unfold run
  rw [hrt]

/-- Witness for C4: one batch fragment, schedule [0]. -/
theorem claim_C4_witness :
    assembleEvents [0] baseWorld ["k0"] = Except.ok (List.flatten [[7]]) ∧
    run [0] baseWorld cfgJob =
      run (List.range (["k0"] : List String).length) baseWorld cfgJob :=
  claim_C4_order_independent_assembly [0] baseWorld cfgJob ["k0"] [[7]]
    rfl (by decide) (by decide) rfl (by decide) rfl

/-- C6: the merge/persist operation is invoked at most once per attempt, and
any performed call carries the entity type of the first assembled event, the
tenant's projectId, the job's eventBodyId, and the full assembled sequence
(which is non-empty). -/
theorem claim_C6_merge_at_most_once {C E : Type} (sched : List Nat)
    (w : World C E) (job : Job) :
    (run sched w job).2.merges.length ≤ 1 ∧
    ∀ mc ∈ (run sched w job).2.merges,
      ∃ keys events e0 rest,
        w.listFiles (fragmentFolder w job (eventNameOf job.data.payload.data.type)) =
          Except.ok keys ∧
        assembleEvents sched w keys = Except.ok events ∧
        events = e0 :: rest ∧
        mc.entityType = w.entityType e0 ∧
        mc.projectId = job.data.payload.authCheck.scope.projectId ∧
        mc.eventBodyId = job.data.payload.data.eventBodyId ∧
        mc.events = events := by
  rw [run_merges_eq]
  exact runTry_merge_shape sched w job

/-- Witness for C6: the single merge call of the healthy world carries the
derived entity type, tenant, body id and assembled batch. -/
theorem claim_C6_witness :
    ∃ keys events e0 rest,
      baseWorld.listFiles
        (fragmentFolder baseWorld cfgJob (eventNameOf cfgJob.data.payload.data.type)) =
        Except.ok keys ∧
      assembleEvents [0] baseWorld keys = Except.ok events ∧
      events = e0 :: rest ∧
      ({ entityType := "trace", projectId := "p1", eventBodyId := "b1",
         events := [7] } : MergeCall Nat).entityType = baseWorld.entityType e0 ∧
      ({ entityType := "trace", projectId := "p1", eventBodyId := "b1",
         events := [7] } : MergeCall Nat).projectId =
        cfgJob.data.payload.authCheck.scope.projectId ∧
      ({ entityType := "trace", projectId := "p1", eventBodyId := "b1",
         events := [7] } : MergeCall Nat).eventBodyId =
        cfgJob.data.payload.data.eventBodyId ∧
      ({ entityType := "trace", projectId := "p1", eventBodyId := "b1",
         events := [7] } : MergeCall Nat).events = events :=
  (claim_C6_merge_at_most_once [0] baseWorld cfgJob).2
    { entityType := "trace", projectId := "p1", eventBodyId := "b1", events := [7] }
    (by decide)

/-- C8 (counterexample to the claim as stated): a successful attempt that
finds zero events records no attempts-started counter, so the counter is not
recorded on every attempt regardless of outcome path. -/
theorem claim_C8_counterexample :
    (run [] wEmptyListing cfgJob).1 = Except.ok () ∧
    (run [] wEmptyListing cfgJob).2.increments = [] :=
  ⟨rfl, rfl⟩

/-- C8 (amended): the attempts-started counter is recorded exactly on
attempts whose merge call was made and succeeded (it is recorded right after
the merge returns); empty-batch attempts and attempts failing at or before
the merge record no counter. -/
theorem claim_C8_amended_counter_only_after_merge {C E : Type} (sched : List Nat)
    (w : World C E) (job : Job) :
    ((run sched w job).2.increments ≠ [] ↔
      ∃ mc ∈ (run sched w job).2.merges,
        w.merge mc.entityType mc.projectId mc.eventBodyId mc.events = Except.ok ()) := by
  rw [run_increments_eq, run_merges_eq]
  exact runTry_inc_iff sched w job

/-- Witness for C8 (amended) at the healthy concrete world. -/
theorem claim_C8_witness :
    ((run [0] baseWorld cfgJob).2.increments ≠ [] ↔
      ∃ mc ∈ (run [0] baseWorld cfgJob).2.merges,
        baseWorld.merge mc.entityType mc.projectId mc.eventBodyId mc.events =
          Except.ok ()) :=
  claim_C8_amended_counter_only_after_merge [0] baseWorld cfgJob

/-- C9: the processor raises an error iff one of its internal steps raised
one, and every internal failure is logged at error level with the tenant's
projectId, forwarded to the tracing sink, and rethrown unchanged. -/
theorem claim_C9_failures_logged_traced_rethrown {C E : Type} (sched : List Nat)
    (w : World C E) (job : Job) (e : String) :
    (((run sched w job).1 = Except.error e) ↔ ((runTry sched w job).1 = Except.error e)) ∧
    ((runTry sched w job).1 = Except.error e →
      (⟨LogLevel.error, "Failed job ingestion processing for "
        ++ job.data.payload.authCheck.scope.projectId⟩ : LogEntry)
        ∈ (run sched w job).2.logs ∧
      e ∈ (run sched w job).2.traced) := by
  unfold run
  cases h : runTry sched w job with
  | mk fst eff =>
    cases fst with
    | ok u => simp
    | error e2 =>
      refine ⟨by simp, ?_⟩
      intro h2
      have he2 : e2 = e := by simpa using h2
      subst he2
      constructor
      · simp
      · simp

/-- Witness for C9: a configuration failure is rethrown and traced. -/
theorem claim_C9_witness :
    (run [] wConfigOff cfgJob).1 =
      Except.error "S3 event store is not enabled but useS3EventStore is true" ∧
    "S3 event store is not enabled but useS3EventStore is true"
      ∈ (run [] wConfigOff cfgJob).2.traced := by
  constructor
  · exact (claim_C9_failures_logged_traced_rethrown [] wConfigOff cfgJob
      "S3 event store is not enabled but useS3EventStore is true").1.mpr rfl
  · exact ((claim_C9_failures_logged_traced_rethrown [] wConfigOff cfgJob
      "S3 event store is not enabled but useS3EventStore is true").2 rfl).2

/-- C5 (counterexample to the claim as stated): a fragment matching neither
schema fails the attempt, but the raised error message does not carry the
fragment's key ("frag-key-1"): it carries only the fixed text plus the
single-event schema's error message. -/
theorem claim_C5_counterexample :
    (run [0] wBadFragment cfgJob).1 =
      Except.error "Failed to parse event from S3: missing type field" ∧
    containsChars ("frag-key-1".data)
      ("Failed to parse event from S3: missing type field".data) = false :=
  ⟨rfl, rfl⟩

/-- C5 (amended): a fragment validating as neither shape fails the whole
attempt with a raised validation error carrying the underlying single-event
schema error message (but not the fragment's key), and the merge step is
never invoked. -/
theorem claim_C5_amended_invalid_fragment_fails_job {C E : Type} (sched : List Nat)
    (w : World C E) (job : Job) (keys : List String)
    (h1 : w.uploadEnabled = "true") (h2 : ¬ w.bucket = "")
    (h3 : ¬ eventNameOf job.data.payload.data.type = "")
    (h4 : w.listFiles (fragmentFolder w job (eventNameOf job.data.payload.data.type)) =
      Except.ok keys)
    (hp : sched.Perm (List.range keys.length))
    (hdl : ∀ k ∈ keys, ∃ file c, w.download k = Except.ok file ∧
      w.jsonParse file = Except.ok c)
    (hbad : ∃ k ∈ keys, ∃ file c eb es, w.download k = Except.ok file ∧
      w.jsonParse file = Except.ok c ∧ w.batchSafeParse c = Except.error eb ∧
      w.eventSafeParse c = Except.error es) :
    ∃ k ∈ keys, ∃ file c es, w.download k = Except.ok file ∧
      w.jsonParse file = Except.ok c ∧ w.eventSafeParse c = Except.error es ∧
      (run sched w job).1 = Except.error ("Failed to parse event from S3: " ++ es) ∧
      (run sched w job).2.merges = [] := by
  obtain ⟨k, hk, file, c, eb, es, hdk, hjk, hbk, hek⟩ := hbad
  have htk : fragmentTask w k =
      Except.error ("Failed to parse event from S3: " ++ es) := by
    simp [fragmentTask, hdk, hjk, hbk, hek]
  obtain ⟨i, hgi⟩ := List.mem_iff_get?.mp hk
  have hilen : i < keys.length := (List.get?_eq_some.mp hgi).1
  have hti : (keys.map (fragmentTask w)).get? i =
      some (Except.error ("Failed to parse event from S3: " ++ es)) := by
    rw [List.get?_map, hgi]
    simp [htk]
  have hisched : i ∈ sched := hp.mem_iff.mpr (List.mem_range.mpr hilen)
  obtain ⟨e, he⟩ := firstErrorIn_isSome_of hisched hti
  obtain ⟨j, hjs, htj⟩ := exists_of_firstErrorIn he
  have hjlen : j < keys.length := by
    have := (List.get?_eq_some.mp htj).1
    simpa using this
  obtain ⟨k2, hk2⟩ : ∃ k2, keys.get? j = some k2 := by
    cases hq : keys.get? j with
    | none =>
      rw [List.get?_eq_none] at hq
      omega
    | some k2 => exact ⟨k2, rfl⟩
  have hk2mem : k2 ∈ keys := List.get?_mem hk2
  have htk2 : fragmentTask w k2 = Except.error e := by
    rw [List.get?_map, hk2] at htj
    simpa using htj
  obtain ⟨file2, c2, hd2, hj2⟩ := hdl k2 hk2mem
  have hshape : ∃ es2, w.eventSafeParse c2 = Except.error es2 ∧
      e = "Failed to parse event from S3: " ++ es2 := by
    cases hb2 : w.batchSafeParse c2 with
    | ok l =>
      have hcomp : fragmentTask w k2 = Except.ok l := by
        simp [fragmentTask, hd2, hj2, hb2]
      rw [hcomp] at htk2
      exact absurd htk2 (by simp)
    | error eb2 =>
      cases he2 : w.eventSafeParse c2 with
      | ok ev =>
        have hcomp : fragmentTask w k2 = Except.ok [ev] := by
          simp [fragmentTask, hd2, hj2, hb2, he2]
        rw [hcomp] at htk2
        exact absurd htk2 (by simp)
      | error es2 =>
        have hcomp : fragmentTask w k2 =
            Except.error ("Failed to parse event from S3: " ++ es2) := by
          simp [fragmentTask, hd2, hj2, hb2, he2]
        rw [hcomp] at htk2
        simp only [Except.error.injEq] at htk2
        exact ⟨es2, rfl, htk2.symm⟩
  obtain ⟨es2, hes2, hee⟩ := hshape
  have hai : assembleEvents sched w keys = Except.error e := by
    unfold assembleEvents promiseAll
    rw [he]
  have hrt : (runTry sched w job).1 = Except.error e ∧
      (runTry sched w job).2.merges = [] := by
    simp only [runTry]
    rw [if_neg (by simp [h1, h2]), if_neg h3, h4]
    simp [hai]
  refine ⟨k2, hk2mem, file2, c2, es2, hd2, hj2, hes2, ?_, ?_⟩
  · rw [run_fst_eq, hrt.1, hee]
  · rw [run_merges_eq, hrt.2]

/-- Witness for C5 (amended) at the concrete bad-fragment world. -/
theorem claim_C5_witness :
    ∃ k ∈ (["frag-key-1"] : List String), ∃ file c es,
      wBadFragment.download k = Except.ok file ∧
      wBadFragment.jsonParse file = Except.ok c ∧
      wBadFragment.eventSafeParse c = Except.error es ∧
      (run [0] wBadFragment cfgJob).1 =
        Except.error ("Failed to parse event from S3: " ++ es) ∧
      (run [0] wBadFragment cfgJob).2.merges = [] :=
  claim_C5_amended_invalid_fragment_fails_job [0] wBadFragment cfgJob ["frag-key-1"]
    rfl (by decide) (by decide) rfl (by decide)
    (fun k hk => ⟨"raw", 0, rfl, rfl⟩)
    ⟨"frag-key-1", by decide, "raw", 0, "not an array", "missing type field",
      rfl, rfl, rfl, rfl⟩
